import Mathlib

/-!
Verification of the BUG-x command-template pipeline engine.

The development shallowly embeds the pipeline-relevant parts of the
repository (`tools.py`, `run.py`): the target normalizer
(`slugify_target`), the artifact merge (`combine_unique_files`), the
gf filter fallback (`run_gf_filter`), the command builder
(`build_command`), the process runner (`BugxRunner._execute_command`),
the recon stage (`BugxRunner._run_recon`), and the confidence scoring
(`BugxRunner._calculate_confidence`).

Python strings are modelled as lists of Unicode code points
(`PyStr := List Nat`); files are modelled as lists of raw lines, with
`none` standing for a path that does not exist.
-/

namespace Bugx

/-- A Python string, as the list of its Unicode code points. -/
abbrev PyStr := List Nat

/-- Code points of a Lean string literal, used to write `PyStr` constants. -/
def codes (s : String) : PyStr := s.data.map Char.toNat

/-- Python `str.strip` default whitespace for code points below 256
(ASCII whitespace, the C0 separators 28–31, NEL 133 and NBSP 160).
Code points at or above 256 are treated as non-space; the repository
only feeds domain-, URL- and path-shaped strings through `strip`. -/
def pyIsSpace (n : Nat) : Bool :=
  decide (n = 9 ∨ n = 10 ∨ n = 11 ∨ n = 12 ∨ n = 13 ∨ n = 28 ∨ n = 29 ∨
    n = 30 ∨ n = 31 ∨ n = 32 ∨ n = 133 ∨ n = 160)

/-- Python `str.isalnum`, character-wise, faithful on ASCII and Latin-1:
digits, ASCII letters, and the Latin-1 letters and numeric signs
(ª ² ³ µ ¹ º ¼ ½ ¾, À–Ö, Ø–ö, ø–ÿ). Code points at or above 256 are
treated as non-alphanumeric. -/
def pyIsAlnum (n : Nat) : Bool :=
  decide ((48 ≤ n ∧ n ≤ 57) ∨ (65 ≤ n ∧ n ≤ 90) ∨ (97 ≤ n ∧ n ≤ 122) ∨
    n = 170 ∨ n = 178 ∨ n = 179 ∨ n = 181 ∨ n = 185 ∨ n = 186 ∨
    n = 188 ∨ n = 189 ∨ n = 190 ∨
    (192 ≤ n ∧ n ≤ 214) ∨ (216 ≤ n ∧ n ≤ 246) ∨ (248 ≤ n ∧ n ≤ 255))

/-- Python `str.lower`, character-wise, faithful on ASCII and Latin-1
(A–Z and À–Þ except × map to their lowercase forms 32 code points up);
identity elsewhere. -/
def pyLower (n : Nat) : Nat :=
  if (65 ≤ n ∧ n ≤ 90) ∨ (192 ≤ n ∧ n ≤ 222 ∧ n ≠ 215) then n + 32 else n

/-- Python `str.lstrip()`. -/
def pyLStrip (s : PyStr) : PyStr := s.dropWhile pyIsSpace

/-- Python `str.rstrip()`. -/
def pyRStrip (s : PyStr) : PyStr := (s.reverse.dropWhile pyIsSpace).reverse

/-- Python `str.strip()`. -/
def pyStrip (s : PyStr) : PyStr := pyLStrip (pyRStrip s)

/-- Python `str.lower` on a whole string. -/
def pyLowerStr (s : PyStr) : PyStr := s.map pyLower

/-- Python `str.startswith`: `pyStartswith p s` is true when `p` is a
prefix of `s`. -/
def pyStartswith : PyStr → PyStr → Bool
  | [], _ => true
  | _ :: _, [] => false
  | p :: ps, c :: cs => p == c && pyStartswith ps cs

end Bugx

namespace Bugx

/-! ## Target Normalizer: `slugify_target` (tools.py lines 150–165) -/

/-- The `for prefix in ("https://", "http://")` loop of `slugify_target`:
first a leading `https://` is removed if present, then a leading
`http://` is removed from the result if present. -/
def stripSchemes (s : PyStr) : PyStr :=
  let s1 := if pyStartswith (codes "https://") s then s.drop 8 else s
  if pyStartswith (codes "http://") s1 then s1.drop 7 else s1

/-- `cleaned.split("/", 1)[0]`: everything before the first `/` (47). -/
def takeUntilSlash (s : PyStr) : PyStr := s.takeWhile (fun c => c != 47)

/-- `if cleaned.startswith("www."): cleaned = cleaned[4:]`. -/
def stripWww (s : PyStr) : PyStr :=
  if pyStartswith (codes "www.") s then s.drop 4 else s

/-- `parts = cleaned.split("."); if len(parts) > 1: cleaned = parts[0]`:
when the string contains a `.` (46), keep only the part before the
first one. -/
def firstLabel (s : PyStr) : PyStr :=
  if 46 ∈ s then s.takeWhile (fun c => c != 46) else s

/-- `"".join(ch if ch.isalnum() else "_" for ch in cleaned)`. -/
def replaceNonAlnum (s : PyStr) : PyStr :=
  s.map (fun c => if pyIsAlnum c then c else 95)

/-- `slugify_target` from tools.py: strip and lowercase, drop the
scheme prefixes, truncate at the first `/`, drop a leading `www.`,
keep the first label before the first remaining `.`, replace every
non-alphanumeric character with `_` (95), and fall back to the literal
`"target"` when the result is empty. -/
def slugify_target (raw : PyStr) : PyStr :=
  let cleaned0 := pyLowerStr (pyStrip raw)
  let cleaned1 := stripSchemes cleaned0
  let cleaned2 := takeUntilSlash cleaned1
  let cleaned3 := stripWww cleaned2
  let cleaned4 := firstLabel cleaned3
  let cleaned5 := replaceNonAlnum cleaned4
  if cleaned5 = [] then codes "target" else cleaned5

/-! ## Artifact merge: `combine_unique_files` (tools.py lines 223–238)

A file is a list of raw lines; an input file that is falsy or fails
`path.exists()` is `none` and is skipped. In the source, the `seen`
set and the sequence of lines written to the destination always hold
the same lines (a line is written exactly when it is added to `seen`),
so the model carries them as one insertion-ordered duplicate-free
list; `len(seen)` is its length. -/

/-- Processing of one raw input line: strip it, skip it when it is
empty or already seen, otherwise append it to the written output. -/
def combineStep (seen : List PyStr) (line : PyStr) : List PyStr :=
  let t := pyStrip line
  if t = [] ∨ t ∈ seen then seen else seen ++ [t]

/-- `combine_unique_files`: the lines written to the destination (in
order), and the returned count `len(seen)`. -/
def combine_unique_files (files : List (Option (List PyStr))) : List PyStr × Nat :=
  let written := ((files.filterMap id).flatten).foldl combineStep []
  (written, written.length)

/-- `count_lines` (tools.py lines 241–245): 0 for a missing file,
otherwise the number of lines whose `strip()` is non-empty. -/
def count_lines : Option (List PyStr) → Nat
  | none => 0
  | some ls => (ls.filter (fun l => pyStrip l ≠ [])).length

/-! ## gf filter: `run_gf_filter` (tools.py lines 254–263) -/

/-- `run_gf_filter`, over the observable state of the external world:
`gfOnPath` is the result of `shutil.which("gf")`, `rc` the exit code
of the shell pipeline when it runs, `gfOut` the lines the pipeline
redirects into the destination, and `source` the lines of the source
file. Returns the destination content and the returned line count.
When `gf` is absent, or the pipeline exits non-zero, the source file
is copied to the destination unchanged. -/
def run_gf_filter (gfOnPath : Bool) (rc : Int) (gfOut source : List PyStr) :
    List PyStr × Nat :=
  if !gfOnPath then (source, count_lines (some source))
  else if rc ≠ 0 then (source, count_lines (some source))
  else (gfOut, count_lines (some gfOut))

/-! ## Process Runner: `BugxRunner._execute_command` (run.py lines 189–257) -/

/-- Outcome of one spawned child process as observed by
`_execute_command`: a normal exit with a return code, expiry of
`process.wait(timeout=...)`, or any other exception out of the `try`
body. -/
inductive ProcOutcome where
  | exited (returncode : Int)
  | timedOut
  | spawnError
deriving DecidableEq

/-- Result delivered to the caller of `_execute_command`: the returned
boolean, whether `process.kill()` was invoked, and whether an
exception escaped to the caller. -/
structure ExecResult where
  success : Bool
  childKilled : Bool
  raised : Bool
deriving DecidableEq

/-- `_execute_command` control flow: a zero return code yields `True`;
a non-zero one yields `False`; `subprocess.TimeoutExpired` is caught,
the child is killed and waited on, and `False` is returned; any other
exception is caught and `False` is returned. No branch re-raises. -/
def executeCommand : ProcOutcome → ExecResult
  | .exited rc => { success := rc == 0, childKilled := false, raised := false }
  | .timedOut => { success := false, childKilled := true, raised := false }
  | .spawnError => { success := false, childKilled := false, raised := false }

/-- A sequential run of `_execute_command` steps, as in the
`_run_*_mode` methods of run.py: each step runs in turn; a step whose
invocation raised to the caller would end the sequence early. -/
def runSteps : List ProcOutcome → List ExecResult
  | [] => []
  | o :: rest =>
    let r := executeCommand o
    if r.raised then [r] else r :: runSteps rest

/-! ## Combo workflow staging (tools.py `execute_combo_workflow`,
lines 313–452, via `run_combo_tool` and `stream_process`) -/

/-- Outcome of one combo stage: the tool ran and `stream_process`
returned an exit code (printed as a warning when non-zero, never
raised), or `subprocess.Popen` raised before the tool could run. The
latter happens only for an argument-vector command whose binary is
absent from the search path; a shell-string command with a missing
binary still spawns `/bin/sh`, which exits 127, so it is a
`completed 127` outcome. -/
inductive StepOutcome where
  | completed (rc : Int)
  | spawnFailed
deriving DecidableEq

/-- The stage loop of `execute_combo_workflow`: stages run in order
inside one `try` block, so an exception raised by a stage skips every
remaining stage (the outer `except` only records the error). Returns
the exit codes of the stages that ran and whether the workflow was
aborted. -/
def comboStages : List StepOutcome → List Int × Bool
  | [] => ([], false)
  | .completed rc :: rest =>
    let r := comboStages rest
    (rc :: r.1, r.2)
  | .spawnFailed :: _ => ([], true)

/-! ## Recon stage: `BugxRunner._run_recon` (run.py lines 625–641) and
the gau fallback of `_run_url_collection` (lines 643–658) -/

/-- `_run_recon`, over the artifacts the external tools produce:
`subs` is the state of the subfinder output file after subfinder ran
(`none` when it does not exist, otherwise its lines); `httpxOut` is
the state of the httpx output file after httpx ran. Returns the state
of the `active_urls` file handed to the next stage. When the
subfinder artifact is missing or zero-byte, the stage writes
`http://{target}` and `https://{target}` into `active_urls` itself
and does not run httpx. -/
def runRecon (subs : Option (List PyStr)) (httpxOut : Option (List PyStr))
    (target : PyStr) : Option (List PyStr) :=
  match subs with
  | none => some [codes "http://" ++ target, codes "https://" ++ target]
  | some lines =>
    if lines = [] then
      some [codes "http://" ++ target, codes "https://" ++ target]
    else httpxOut

/-- The gau step of `_run_url_collection`:
`cat ... | gau --o F 2>/dev/null || touch F` — when gau fails to
produce `F`, the shell touches an empty `F`, so the file always
exists. -/
def gauArtifact (gauOut : Option (List PyStr)) : List PyStr :=
  match gauOut with
  | some ls => ls
  | none => []

/-! ## Confidence scoring: `BugxRunner._calculate_confidence`
(run.py lines 313–341) -/

/-- The observable shape of one finding, as `_calculate_confidence`
reads it: whether it is a dict, the value of its `severity` key, and
the truthiness of its `matcher-name` and `curl-command`/`request`
keys. -/
structure Finding where
  isDict : Bool
  severity : Option PyStr
  matcherName : Bool
  curlOrRequest : Bool

/-- The `tool_scores` table, keyed by the lowercased tool name. -/
def toolScore (tool : PyStr) : Option Nat :=
  let t := pyLowerStr tool
  if t = codes "nuclei" then some 85
  else if t = codes "dalfox" then some 90
  else if t = codes "sqlmap" then some 95
  else if t = codes "subjack" then some 80
  else if t = codes "ffuf" then some 70
  else if t = codes "kxss" then some 75
  else if t = codes "arjun" then some 65
  else none

/-- `_calculate_confidence`: base 50, replaced by the tool score when
the lowercased tool name is in the table; +10 for critical/high
severity, +5 for a matcher name, +5 for a curl command or request
(dict findings only); capped at 99 by `min`. -/
def calculateConfidence (f : Finding) (tool : PyStr) : Nat :=
  let c1 := (toolScore tool).getD 50
  let c2 := if f.isDict &&
      (f.severity == some (codes "critical") || f.severity == some (codes "high"))
    then c1 + 10 else c1
  let c3 := if f.isDict && f.matcherName then c2 + 5 else c2
  let c4 := if f.isDict && f.curlOrRequest then c3 + 5 else c3
  min c4 99

/-! ## Command Builder: `build_command` (tools.py lines 1018–1271)

Filesystem paths are modelled as `PyStr` with `/` (47) as separator;
`Path.home()` is the abstract component `~`. The effect of every
`mkdir(parents=True, exist_ok=True)` call performed before the
function returns is recorded in the `created` field of the result.
`expand_flags` (a `shlex.split` of each flag string) is abstracted as
the token list it yields, which `build_command` receives directly. -/

/-- `pathlib` `/`: join two path segments with a `/` (47). -/
def pathJoin (a b : PyStr) : PyStr := a ++ 47 :: b

/-- `Path.home()`, kept abstract as the component `~`. -/
def homePath : PyStr := codes "~"

/-- `PROJECT_HOME = Path.home() / "BUGx"`. -/
def PROJECT_HOME : PyStr := pathJoin homePath (codes "BUGx")

/-- `WORDLIST_DIR = PROJECT_HOME / "wordlists"`. -/
def WORDLIST_DIR : PyStr := pathJoin PROJECT_HOME (codes "wordlists")

/-- `SINGLES_DIR = PROJECT_HOME / "singletarget"`. -/
def SINGLES_DIR : PyStr := pathJoin PROJECT_HOME (codes "singletarget")

/-- `COMBO_DIR = PROJECT_HOME / "Kombinasitools"`. -/
def COMBO_DIR : PyStr := pathJoin PROJECT_HOME (codes "Kombinasitools")

/-- The characters `shlex.quote` leaves unquoted — ASCII letters and
digits plus underscore, at sign, percent, plus, equals, colon, comma,
dot, slash and hyphen, per `shlex._find_unsafe` with `re.ASCII`. -/
def shlexSafeChar (n : Nat) : Bool :=
  decide ((48 ≤ n ∧ n ≤ 57) ∨ (65 ≤ n ∧ n ≤ 90) ∨ (97 ≤ n ∧ n ≤ 122) ∨
    n = 95 ∨ n = 64 ∨ n = 37 ∨ n = 43 ∨ n = 61 ∨ n = 58 ∨ n = 44 ∨
    n = 46 ∨ n = 47 ∨ n = 45)

/-- `shlex.quote`: empty strings become two single quotes (39); safe
strings pass through; anything else is wrapped in single quotes with
each inner single quote replaced by the five characters
quote, double quote, quote, double quote, quote. -/
def shlexQuote (s : PyStr) : PyStr :=
  if s = [] then [39, 39]
  else if s.all shlexSafeChar then s
  else 39 :: ((s.map (fun c => if c = 39 then [39, 34, 39, 34, 39] else [c])).flatten ++ [39])

/-- `join_flags_string`: `" ".join(flags).strip()`. -/
def join_flags_string (flags : List PyStr) : PyStr :=
  pyStrip (List.intercalate [32] flags)

/-- The parts of a `FocusOption` that `build_command` reads:
`is_file` and the associated wordlist names. -/
structure FocusOpt where
  isFile : Bool
  wordlists : List PyStr

/-- A built command: an argument vector, or a literal shell string. -/
inductive Cmd where
  | vec (args : List PyStr)
  | sh (line : PyStr)
deriving DecidableEq

/-- The value returned by `build_command`, plus the record of the
directories it created before returning. -/
structure BuildResult where
  command : Cmd
  outfile : PyStr
  shell : Bool
  created : List PyStr

/-- `wl_path`: the name itself when that path exists (`expanduser`
modelled as identity), otherwise `WORDLIST_DIR / name`; `wlExists` is
the filesystem existence oracle. -/
def wlPath (wlExists : PyStr → Bool) (name : PyStr) : PyStr :=
  if wlExists name then name else pathJoin WORDLIST_DIR name

/-- `TOOL_ORDER` (tools.py lines 582–611); `TOOL_CONFIGS` has exactly
these keys, and every entry has `command` equal to its key. -/
def TOOL_ORDER : List String :=
  ["subfinder", "assetfinder", "amass", "gau", "waybackurls", "httpx",
   "naabu", "dnsx", "nuclei", "ffuf", "feroxbuster", "gobuster",
   "gospider", "httprobe", "sqlmap", "masscan", "nmap", "whatweb",
   "wpscan", "eyewitness", "subjack", "sublister", "shuffledns",
   "dalfox", "gowitness", "XSpear", "xpoc", "paramspider"]

/-- `slug_name = slug_override or slugify_target(target)` (a falsy,
i.e. empty, override also falls back to the slug). -/
def slugName (slugOverride : Option PyStr) (target : PyStr) : PyStr :=
  match slugOverride with
  | some s => if s = [] then slugify_target target else s
  | none => slugify_target target

/-- `build_command`: `none` models the `KeyError` on an unconfigured
tool; otherwise the command, output artifact path, shell flag, and the
directories created before returning. `wlExists` is the filesystem
oracle behind `wl_path`; `nucleiTemplates` is
`(Path.home() / "nuclei-templates").exists()`. -/
def build_command (tool : String) (target : PyStr) (focus : FocusOpt)
    (flagsExpanded : List PyStr) (customWordlists : Option (List PyStr))
    (wlExists : PyStr → Bool) (nucleiTemplates : Bool)
    (outputRoot : PyStr) (slugOverride : Option PyStr) : Option BuildResult :=
  if ¬ tool ∈ TOOL_ORDER then none else
  let slug_name := slugName slugOverride target
  let output_dir := pathJoin outputRoot slug_name
  let wordlists := match customWordlists with
    | some l => if l = [] then focus.wordlists else l
    | none => focus.wordlists
  let flag_str := join_flags_string flagsExpanded
  let flag_part := if flag_str = [] then [] else flag_str ++ [32]
  let wlFlags (flag : PyStr) : List PyStr :=
    (wordlists.map (fun wl => [flag, wlPath wlExists wl])).flatten
  if tool = "subfinder" then
    let outfile := pathJoin output_dir (codes "subfinder.txt")
    some ⟨.vec ([codes "subfinder", codes "-d", target] ++ flagsExpanded ++
      [codes "-o", outfile]), outfile, false, [output_dir]⟩
  else if tool = "assetfinder" then
    let outfile := pathJoin output_dir (codes "assetfinder.txt")
    some ⟨.sh (codes "assetfinder --subs-only " ++ flag_part ++
      shlexQuote target ++ codes " > " ++ shlexQuote outfile),
      outfile, true, [output_dir]⟩
  else if tool = "amass" then
    let outfile := pathJoin output_dir (codes "amass.txt")
    some ⟨.vec ([codes "amass"] ++ flagsExpanded ++
      [codes "-d", target, codes "-o", outfile]), outfile, false, [output_dir]⟩
  else if tool = "gau" then
    let outfile := pathJoin output_dir (codes "gau.txt")
    some ⟨.sh (codes "gau " ++ flag_part ++ shlexQuote target ++
      codes " > " ++ shlexQuote outfile), outfile, true, [output_dir]⟩
  else if tool = "waybackurls" then
    let outfile := pathJoin output_dir (codes "waybackurls.txt")
    some ⟨.sh (if flag_str ≠ [] then
        codes "echo " ++ shlexQuote target ++ codes " | waybackurls " ++
          flag_str ++ codes " > " ++ shlexQuote outfile
      else
        codes "echo " ++ shlexQuote target ++ codes " | waybackurls > " ++
          shlexQuote outfile), outfile, true, [output_dir]⟩
  else if tool = "httpx" then
    let outfile := pathJoin output_dir (codes "httpx.txt")
    some ⟨.vec ([codes "httpx"] ++
      (if focus.isFile then [codes "-l", target] else [codes "-u", target]) ++
      flagsExpanded ++ [codes "-o", outfile]), outfile, false, [output_dir]⟩
  else if tool = "naabu" then
    let outfile := pathJoin output_dir (codes "naabu.txt")
    some ⟨.vec ([codes "naabu"] ++
      (if focus.isFile then [codes "-list", target] else [codes "-host", target]) ++
      flagsExpanded ++ [codes "-o", outfile]), outfile, false, [output_dir]⟩
  else if tool = "dnsx" then
    let outfile := pathJoin output_dir (codes "dnsx.txt")
    some ⟨.vec ([codes "dnsx", codes "-l", target, codes "-r",
      wlPath wlExists (codes "resolvers.txt")] ++ flagsExpanded ++
      [codes "-o", outfile]), outfile, false, [output_dir]⟩
  else if tool = "nuclei" then
    let outfile := pathJoin output_dir (codes "nuclei.json")
    some ⟨.vec ([codes "nuclei", codes "-l", target, codes "-o", outfile] ++
      (if nucleiTemplates then
        [codes "-t", pathJoin homePath (codes "nuclei-templates")] else []) ++
      flagsExpanded), outfile, false, [output_dir]⟩
  else if tool = "ffuf" then
    let outfile := pathJoin output_dir (codes "ffuf.json")
    some ⟨.vec ([codes "ffuf", codes "-u", target] ++ wlFlags (codes "-w") ++
      flagsExpanded ++ [codes "-o", outfile]), outfile, false, [output_dir]⟩
  else if tool = "feroxbuster" then
    let outfile := pathJoin output_dir (codes "feroxbuster.txt")
    some ⟨.vec ([codes "feroxbuster", codes "-u", target] ++ wlFlags (codes "-w") ++
      flagsExpanded ++ [codes "-o", outfile]), outfile, false, [output_dir]⟩
  else if tool = "gobuster" then
    let outfile := pathJoin output_dir (codes "gobuster.txt")
    some ⟨.vec ([codes "gobuster"] ++ flagsExpanded ++ [codes "-u", target] ++
      wlFlags (codes "-w") ++ [codes "-o", outfile]), outfile, false, [output_dir]⟩
  else if tool = "gospider" then
    let out_dir := pathJoin output_dir (codes "gospider")
    some ⟨.vec ([codes "gospider", codes "-s", target, codes "-o", out_dir] ++
      flagsExpanded), out_dir, false, [output_dir, out_dir]⟩
  else if tool = "httprobe" then
    let outfile := pathJoin output_dir (codes "httprobe.txt")
    some ⟨.sh (if flag_str ≠ [] then
        codes "cat " ++ shlexQuote target ++ codes " | httprobe " ++
          flag_str ++ codes " > " ++ shlexQuote outfile
      else
        codes "cat " ++ shlexQuote target ++ codes " | httprobe > " ++
          shlexQuote outfile), outfile, true, [output_dir]⟩
  else if tool = "sqlmap" then
    let out_dir := pathJoin output_dir (codes "sqlmap")
    some ⟨.vec ([codes "sqlmap"] ++ flagsExpanded ++
      (if focus.isFile then [codes "-m", target] else [codes "-u", target]) ++
      [codes "--output-dir", out_dir]), out_dir, false, [output_dir, out_dir]⟩
  else if tool = "masscan" then
    let outfile := pathJoin output_dir (codes "masscan.txt")
    some ⟨.vec ([codes "masscan", target] ++ flagsExpanded ++
      [codes "-oL", outfile]), outfile, false, [output_dir]⟩
  else if tool = "nmap" then
    let base := pathJoin output_dir (codes "nmap")
    some ⟨.vec ([codes "nmap"] ++ flagsExpanded ++
      (if focus.isFile then [codes "-iL", target] else [target]) ++
      [codes "-oA", base]), base ++ codes ".nmap", false, [output_dir]⟩
  else if tool = "whatweb" then
    let outfile := pathJoin output_dir (codes "whatweb.json")
    some ⟨.vec ([codes "whatweb", target] ++ flagsExpanded ++
      [codes "--log-json", outfile]), outfile, false, [output_dir]⟩
  else if tool = "wpscan" then
    let outfile := pathJoin output_dir (codes "wpscan.txt")
    some ⟨.vec ([codes "wpscan", codes "--url", target] ++ flagsExpanded ++
      [codes "--output", outfile]), outfile, false, [output_dir]⟩
  else if tool = "eyewitness" then
    let temp_dir := pathJoin output_dir (codes "eyewitness")
    some ⟨.vec ([codes "eyewitness"] ++
      (if focus.isFile then
        [codes "--web", codes "--threads", codes "20", codes "--prepend-https",
         codes "-f", target]
       else
        [codes "--web", codes "--threads", codes "20", codes "--prepend-https",
         codes "-u", target]) ++
      flagsExpanded ++ [codes "-d", temp_dir]), temp_dir, false,
      [output_dir, temp_dir]⟩
  else if tool = "subjack" then
    let outfile := pathJoin output_dir (codes "subjack.txt")
    some ⟨.vec ([codes "subjack", codes "-w", target, codes "-o", outfile] ++
      flagsExpanded), outfile, false, [output_dir]⟩
  else if tool = "sublister" then
    let outfile := pathJoin output_dir (codes "sublister.txt")
    some ⟨.vec ([codes "sublister", codes "-d", target, codes "-o", outfile] ++
      flagsExpanded), outfile, false, [output_dir]⟩
  else if tool = "shuffledns" then
    let outfile := pathJoin output_dir (codes "shuffledns.txt")
    some ⟨.vec ([codes "shuffledns", codes "-list", target, codes "-r",
      wlPath wlExists (codes "resolvers.txt"), codes "-o", outfile] ++
      flagsExpanded), outfile, false, [output_dir]⟩
  else if tool = "dalfox" then
    let outfile := pathJoin output_dir (codes "dalfox.txt")
    some ⟨.vec ([codes "dalfox"] ++
      (if focus.isFile then [codes "file", codes "--input", target]
       else [codes "url", target]) ++
      flagsExpanded ++ [codes "--output", outfile] ++ wlFlags (codes "-w")),
      outfile, false, [output_dir]⟩
  else if tool = "gowitness" then
    let out_dir := pathJoin output_dir (codes "gowitness")
    some ⟨.vec (if focus.isFile then
        [codes "gowitness", codes "file", codes "-f", target,
         codes "--destination", out_dir] ++ flagsExpanded
      else
        [codes "gowitness", codes "single", codes "-u", target,
         codes "--destination", out_dir] ++ flagsExpanded),
      out_dir, false, [output_dir, out_dir]⟩
  else if tool = "XSpear" then
    let outfile := pathJoin output_dir (codes "XSpear.txt")
    some ⟨.vec ([codes "XSpear"] ++
      (if focus.isFile then [codes "-f", target] else [codes "-u", target]) ++
      flagsExpanded ++ [codes "-o", outfile] ++ wlFlags (codes "-w")),
      outfile, false, [output_dir]⟩
  else if tool = "xpoc" then
    let outfile := pathJoin output_dir (codes "xpoc.json")
    some ⟨.vec ([codes "xpoc", codes "scan", codes "--url", target,
      codes "-o", outfile] ++ flagsExpanded), outfile, false, [output_dir]⟩
  else if tool = "paramspider" then
    let outfile := pathJoin output_dir (codes "paramspider.txt")
    some ⟨.vec ([codes "paramspider", codes "--domain", target,
      codes "--output", outfile] ++ flagsExpanded), outfile, false, [output_dir]⟩
  else
    let outfile := pathJoin output_dir (codes tool ++ codes ".out")
    some ⟨.vec ([codes tool] ++ flagsExpanded), outfile, false, [output_dir]⟩

/-! ## Theorems -/

/-- Stated from the spec, for comparison with `combine_unique_files`:
keep the first occurrence of each line, in order. -/
def dedupFirstSeen (l : List PyStr) : List PyStr :=
  l.foldl (fun acc t => if t ∈ acc then acc else acc ++ [t]) []

/-- Stated from the spec: the union of the trimmed, non-empty lines of
the existing input files, duplicates dropped, in first-seen order
across the given file order. -/
def mergedLinesSpec (files : List (Option (List PyStr))) : List PyStr :=
  dedupFirstSeen ((((files.filterMap id).flatten).map pyStrip).filter (fun t => t ≠ []))

lemma foldl_combineStep_eq (lines : List PyStr) :
    ∀ seen, lines.foldl combineStep seen =
      ((lines.map pyStrip).filter (fun t => t ≠ [])).foldl
        (fun acc t => if t ∈ acc then acc else acc ++ [t]) seen := by
  induction lines with
  | nil => intro seen; rfl
  | cons l ls ih =>
    intro seen
    simp only [List.foldl_cons, List.map_cons, List.filter_cons]
    by_cases h : pyStrip l = [] <;> simp [combineStep, h, ih]

/-- C1: merging artifacts writes to the destination exactly the union
of the trimmed, non-empty lines of the existing input files, with
byte-for-byte duplicates (after trimming) dropped, in first-seen order
across the given file order, and returns their count; in particular
two files with contents `a\nb\n` and `b\nc\n` merge to exactly the
lines `a`, `b`, `c` in that order, and no case-folding or other
normalization is applied (`A\n` and `a\n` both survive). -/
theorem combine_unique_files_union :
    (∀ files, (combine_unique_files files).1 = mergedLinesSpec files ∧
      (combine_unique_files files).2 = (mergedLinesSpec files).length) ∧
    combine_unique_files [some [codes "a\n", codes "b\n"], some [codes "b\n", codes "c\n"]] =
      ([codes "a", codes "b", codes "c"], 3) ∧
    combine_unique_files [some [codes "A\n"], some [codes "a\n"], some [codes "a \n"]] =
      ([codes "A", codes "a"], 2) := by
  refine ⟨fun files => ?_, by decide, by decide⟩
  have h := foldl_combineStep_eq ((files.filterMap id).flatten) []
  exact ⟨h, by simp [combine_unique_files, mergedLinesSpec, dedupFirstSeen, h]⟩

/-- C2: a Process Runner invocation whose child process exceeds the
timeout kills the child, returns a non-success result rather than
raising, and — the embedding of `_execute_command` being a total
function on child-process outcomes — always hands a result back to
the caller (no outcome leaves an exception unhandled). -/
theorem execute_command_timeout_behavior :
    (executeCommand .timedOut).childKilled = true ∧
    (executeCommand .timedOut).success = false ∧
    ∀ o, (executeCommand o).raised = false := by
  refine ⟨rfl, rfl, fun o => ?_⟩
  cases o <;> rfl

/-- C5: in a sequential pipeline every step executes regardless of the
previous return codes (a non-zero exit code yields a `False` result,
never an exception, so the step count of the results always equals the
step count of the pipeline), and a step with a non-zero exit code is
reported as a failure result. -/
theorem pipeline_continues_after_failure :
    (∀ outcomes, (runSteps outcomes).length = outcomes.length) ∧
    (∀ rc : Int, (executeCommand (.exited rc)).success = (rc == 0) ∧
      (executeCommand (.exited rc)).raised = false) := by
  constructor
  · intro outcomes
    induction outcomes with
    | nil => rfl
    | cons o rest ih =>
      have hr : (executeCommand o).raised = false := by cases o <;> rfl
      simp [runSteps, hr, ih]
  · intro rc
    exact ⟨rfl, rfl⟩

/-- C6 counterexample: with `gf` absent from the search path and a
non-empty source file, `run_gf_filter` produces the unfiltered source
as the destination artifact — not an empty one — so a missing binary
is not "treated as empty"; and in a combo workflow a stage whose
binary is missing at spawn time (`Popen` raises) aborts the remaining
stages instead of skipping only itself. -/
theorem missing_binary_counterexample :
    (run_gf_filter false 0 [] [codes "http://x.com?q=1"]).1 = [codes "http://x.com?q=1"] ∧
    (run_gf_filter false 0 [] [codes "http://x.com?q=1"]).1 ≠ [] ∧
    comboStages [.spawnFailed, .completed 0] = ([], true) := by
  refine ⟨rfl, by decide, rfl⟩

/-- C6 as amended: only the gf filter step checks for its binary
before spawning, and when `gf` is absent it is skipped by copying the
unfiltered source through to the destination (passthrough rather than
an empty artifact) without aborting the remaining steps. The other
combo steps spawn unconditionally, and what a missing binary does
depends on the command form: an argument-vector step raises at
`Popen`, which aborts the remaining stages of the workflow (the error
is caught and reported in the run summary), while a shell-string step
(assetfinder, gau, ...) spawns `/bin/sh` successfully, whose missing
command exits 127 — reported as a non-zero exit — and the workflow
continues, as after any stage that merely exits non-zero. -/
theorem missing_binary_behavior :
    (∀ (rc : Int) (gfOut source : List PyStr),
      run_gf_filter false rc gfOut source = (source, count_lines (some source))) ∧
    (∀ rest, comboStages (.spawnFailed :: rest) = ([], true)) ∧
    (∀ rest, comboStages (.completed 127 :: rest) =
      (127 :: (comboStages rest).1, (comboStages rest).2)) ∧
    (∀ (rc : Int) rest, comboStages (.completed rc :: rest) =
      (rc :: (comboStages rest).1, (comboStages rest).2)) := by
  exact ⟨fun _ _ _ => rfl, fun _ => rfl, fun _ => rfl, fun _ _ => rfl⟩

/-- C7 counterexample: when the subdomain producer yields no artifact,
the recon stage substitutes a two-line file listing `http://` and
`https://` of the main target — a non-empty placeholder, not the
zero-byte file the claim requires. -/
theorem recon_placeholder_counterexample :
    runRecon none none (codes "example.com") =
      some [codes "http://example.com", codes "https://example.com"] ∧
    [codes "http://example.com", codes "https://example.com"] ≠ ([] : List PyStr) := by
  exact ⟨by decide, by decide⟩

/-- C7 as amended: when the subdomain producer yields no artifact or
an empty one, the recon stage substitutes an explicit two-line
placeholder file (`http://` and `https://` of the main target) as the
consumer's input, so that input always exists; when it yields lines,
the consumer instead receives the httpx artifact; and the gau step of
URL collection substitutes a zero-byte file via its `touch` fallback. -/
theorem recon_placeholder_behavior :
    (∀ target h, runRecon none h target =
      some [codes "http://" ++ target, codes "https://" ++ target]) ∧
    (∀ target h, runRecon (some []) h target =
      some [codes "http://" ++ target, codes "https://" ++ target]) ∧
    (∀ target h l ls, runRecon (some (l :: ls)) h target = h) ∧
    gauArtifact none = [] ∧
    (∀ ls, gauArtifact (some ls) = ls) := by
  refine ⟨fun _ _ => rfl, fun _ _ => rfl, fun target h l ls => ?_, rfl, fun _ => rfl⟩
  simp [runRecon]

lemma pyLower_idem (n : Nat) : pyLower (pyLower n) = pyLower n := by
  simp only [pyLower]
  split_ifs <;> omega

lemma pyIsAlnum_not_space (n : Nat) (h : pyIsAlnum n = true) : pyIsSpace n = false := by
  simp only [pyIsAlnum, decide_eq_true_eq] at h
  simp only [pyIsSpace, decide_eq_false_iff_not]
  omega

lemma pyIsAlnum_ne47 (n : Nat) (h : pyIsAlnum n = true) : n ≠ 47 := by
  rintro rfl
  exact absurd h (by decide)

lemma pyIsAlnum_ne46 (n : Nat) (h : pyIsAlnum n = true) : n ≠ 46 := by
  rintro rfl
  exact absurd h (by decide)

lemma dropWhile_eq_self_of_all {p : Nat → Bool} {l : PyStr}
    (h : ∀ c ∈ l, p c = false) : l.dropWhile p = l := by
  cases l with
  | nil => rfl
  | cons a t => simp [List.dropWhile_cons, h a (List.mem_cons_self a t)]

lemma takeWhile_eq_self_of_all {p : Nat → Bool} {l : PyStr}
    (h : ∀ c ∈ l, p c = true) : l.takeWhile p = l := by
  induction l with
  | nil => rfl
  | cons a t ih =>
    rw [List.takeWhile_cons, if_pos (h a (List.mem_cons_self a t)),
      ih fun c hc => h c (List.mem_cons_of_mem a hc)]

lemma map_id_of_fixed {f : Nat → Nat} : ∀ {l : PyStr}, (∀ c ∈ l, f c = c) → l.map f = l
  | [], _ => rfl
  | a :: t, h => by
    rw [List.map_cons, h a (List.mem_cons_self a t),
      map_id_of_fixed fun c hc => h c (List.mem_cons_of_mem a hc)]

lemma pyStartswith_subset : ∀ (P l : PyStr), pyStartswith P l = true → ∀ x ∈ P, x ∈ l
  | [], _, _, x, hx => absurd hx (List.not_mem_nil x)
  | _ :: _, [], h, _, _ => by simp [pyStartswith] at h
  | p :: ps, c :: cs, h, x, hx => by
    simp only [pyStartswith, Bool.and_eq_true, beq_iff_eq] at h
    rcases List.mem_cons.mp hx with rfl | hx2
    · rw [h.1]; exact List.mem_cons_self c cs
    · exact List.mem_cons_of_mem c (pyStartswith_subset ps cs h.2 x hx2)

lemma not_pyStartswith_of_mem {P l : PyStr} {x : Nat} (hxP : x ∈ P) (hxl : x ∉ l) :
    pyStartswith P l = false := by
  cases h : pyStartswith P l
  · rfl
  · exact absurd (pyStartswith_subset P l h x hxP) hxl

lemma pyRStrip_sublist (s : PyStr) : List.Sublist (pyRStrip s) s := by
  have h := (List.dropWhile_sublist (l := s.reverse) pyIsSpace).reverse
  rwa [List.reverse_reverse] at h

lemma pyStrip_sublist (s : PyStr) : List.Sublist (pyStrip s) s :=
  (List.dropWhile_sublist _).trans (pyRStrip_sublist s)

lemma stripSchemes_sublist (s : PyStr) : List.Sublist (stripSchemes s) s := by
  simp only [stripSchemes]
  split_ifs
  · exact (List.drop_sublist _ _).trans (List.drop_sublist _ _)
  · exact List.drop_sublist _ _
  · exact List.drop_sublist _ _
  · exact List.Sublist.refl s

lemma stripWww_sublist (s : PyStr) : List.Sublist (stripWww s) s := by
  simp only [stripWww]
  split_ifs
  · exact List.drop_sublist _ _
  · exact List.Sublist.refl s

lemma firstLabel_sublist (s : PyStr) : List.Sublist (firstLabel s) s := by
  simp only [firstLabel]
  split_ifs
  · exact List.takeWhile_sublist _
  · exact List.Sublist.refl s

lemma slugCore_subset (s : PyStr) :
    firstLabel (stripWww (takeUntilSlash (stripSchemes s))) ⊆ s :=
  ((firstLabel_sublist _).trans ((stripWww_sublist _).trans
    ((List.takeWhile_sublist _).trans (stripSchemes_sublist s)))).subset

lemma mem_slug_core {c : Nat} {d : PyStr}
    (h : c ∈ replaceNonAlnum (firstLabel (stripWww (takeUntilSlash
      (stripSchemes (pyLowerStr (pyStrip d))))))) :
    ∃ b ∈ d, c = if pyIsAlnum (pyLower b) then pyLower b else 95 := by
  obtain ⟨a, ha, hfa⟩ := List.mem_map.mp h
  have ha2 : a ∈ pyLowerStr (pyStrip d) := slugCore_subset _ ha
  obtain ⟨b, hb, hlb⟩ := List.mem_map.mp ha2
  exact ⟨b, (pyStrip_sublist d).subset hb, by rw [← hfa, ← hlb]⟩

/-- C3 counterexample: the string `ü.com` contains a dot and no space
or slash (so it is a valid domain string in the sense of the claim),
but its slug is the single character `ü` (252) — `str.lower` leaves it
unchanged and `str.isalnum` accepts it — which is not drawn from
`[a-z0-9_]`. -/
theorem slugify_nonascii_counterexample :
    46 ∈ codes "ü.com" ∧ 32 ∉ codes "ü.com" ∧ 47 ∉ codes "ü.com" ∧
    slugify_target (codes "ü.com") = [252] ∧
    ¬ (∀ c ∈ slugify_target (codes "ü.com"),
      (97 ≤ c ∧ c ≤ 122) ∨ (48 ≤ c ∧ c ≤ 57) ∨ c = 95) := by
  decide

/-- C3 as amended: for every valid domain string made of ASCII
characters (containing a dot and no space or slash), `slugify_target`
is non-empty and contains only characters from `[a-z0-9_]` — the
lowercase letters 97–122, the digits 48–57, and the underscore 95. -/
theorem slugify_ascii_slug_chars (d : PyStr) (hdot : 46 ∈ d) (hsp : 32 ∉ d)
    (hsl : 47 ∉ d) (hascii : ∀ c ∈ d, c < 128) :
    slugify_target d ≠ [] ∧
    ∀ c ∈ slugify_target d, (97 ≤ c ∧ c ≤ 122) ∨ (48 ≤ c ∧ c ≤ 57) ∨ c = 95 := by
  constructor
  · simp only [slugify_target]
    split
    · decide
    · assumption
  · intro c hc
    simp only [slugify_target] at hc
    split at hc
    · have h : ∀ x ∈ codes "target",
          (97 ≤ x ∧ x ≤ 122) ∨ (48 ≤ x ∧ x ≤ 57) ∨ x = 95 := by decide
      exact h c hc
    · obtain ⟨b, hbd, rfl⟩ := mem_slug_core hc
      have h128 := hascii b hbd
      have key : ∀ b' : Nat, b' < 128 →
          (97 ≤ (if pyIsAlnum (pyLower b') then pyLower b' else 95) ∧
            (if pyIsAlnum (pyLower b') then pyLower b' else 95) ≤ 122) ∨
          (48 ≤ (if pyIsAlnum (pyLower b') then pyLower b' else 95) ∧
            (if pyIsAlnum (pyLower b') then pyLower b' else 95) ≤ 57) ∨
          (if pyIsAlnum (pyLower b') then pyLower b' else 95) = 95 := by decide
      exact key b h128

/-- Witness for the amended C3 at the concrete domain `example.com`. -/
theorem slugify_ascii_slug_chars_witness :
    (46 ∈ codes "example.com") ∧
    (slugify_target (codes "example.com") ≠ [] ∧
      ∀ c ∈ slugify_target (codes "example.com"),
        (97 ≤ c ∧ c ≤ 122) ∨ (48 ≤ c ∧ c ≤ 57) ∨ c = 95) :=
  ⟨by decide, slugify_ascii_slug_chars (codes "example.com")
    (by decide) (by decide) (by decide) (by decide)⟩

lemma slug_out_char (b : Nat) :
    pyIsSpace (if pyIsAlnum (pyLower b) then pyLower b else 95) = false ∧
    pyLower (if pyIsAlnum (pyLower b) then pyLower b else 95) =
      (if pyIsAlnum (pyLower b) then pyLower b else 95) ∧
    (if pyIsAlnum (pyLower b) then pyLower b else 95) ≠ 47 ∧
    (if pyIsAlnum (pyLower b) then pyLower b else 95) ≠ 46 ∧
    (if pyIsAlnum (if pyIsAlnum (pyLower b) then pyLower b else 95)
      then (if pyIsAlnum (pyLower b) then pyLower b else 95) else 95) =
      (if pyIsAlnum (pyLower b) then pyLower b else 95) := by
  by_cases h : pyIsAlnum (pyLower b) = true
  · simp only [if_pos h]
    exact ⟨pyIsAlnum_not_space _ h, pyLower_idem b, pyIsAlnum_ne47 _ h,
      pyIsAlnum_ne46 _ h, trivial⟩
  · simp only [if_neg h]
    decide

lemma slugify_fixed (t : PyStr) (hne : t ≠ [])
    (hg : ∀ c ∈ t, pyIsSpace c = false ∧ pyLower c = c ∧ c ≠ 47 ∧ c ≠ 46 ∧
      (if pyIsAlnum c then c else 95) = c) :
    slugify_target t = t := by
  have hRS : pyRStrip t = t := by
    unfold pyRStrip
    rw [dropWhile_eq_self_of_all (fun c hc => (hg c (List.mem_reverse.mp hc)).1),
      List.reverse_reverse]
  have hLS : pyLStrip t = t := dropWhile_eq_self_of_all (fun c hc => (hg c hc).1)
  have hStrip : pyStrip t = t := by unfold pyStrip; rw [hRS, hLS]
  have hLow : pyLowerStr t = t := map_id_of_fixed (fun c hc => (hg c hc).2.1)
  have h47 : (47 : Nat) ∉ t := fun hx => (hg 47 hx).2.2.1 rfl
  have h46 : (46 : Nat) ∉ t := fun hx => (hg 46 hx).2.2.2.1 rfl
  have hS1 : pyStartswith (codes "https://") t = false :=
    not_pyStartswith_of_mem (by decide) h47
  have hS2 : pyStartswith (codes "http://") t = false :=
    not_pyStartswith_of_mem (by decide) h47
  have hS3 : pyStartswith (codes "www.") t = false :=
    not_pyStartswith_of_mem (by decide) h46
  have hSch : stripSchemes t = t := by simp [stripSchemes, hS1, hS2]
  have hTake : takeUntilSlash t = t := by
    refine takeWhile_eq_self_of_all fun c hc => ?_
    simpa using (hg c hc).2.2.1
  have hWww : stripWww t = t := by simp [stripWww, hS3]
  have hFL : firstLabel t = t := by simp [firstLabel, h46]
  have hRep : replaceNonAlnum t = t := map_id_of_fixed (fun c hc => (hg c hc).2.2.2.2)
  simp only [slugify_target]
  rw [hStrip, hLow, hSch, hTake, hWww, hFL, hRep, if_neg hne]

/-- C9: `slugify_target` is idempotent — applying it to its own
output returns that output unchanged, for every input string. -/
theorem slugify_target_idempotent (s : PyStr) :
    slugify_target (slugify_target s) = slugify_target s := by
  by_cases h : replaceNonAlnum (firstLabel (stripWww (takeUntilSlash
      (stripSchemes (pyLowerStr (pyStrip s)))))) = []
  · have hs : slugify_target s = codes "target" := by
      simp only [slugify_target]; rw [if_pos h]
    rw [hs]; decide
  · have hs : slugify_target s = replaceNonAlnum (firstLabel (stripWww (takeUntilSlash
        (stripSchemes (pyLowerStr (pyStrip s)))))) := by
      simp only [slugify_target]; rw [if_neg h]
    rw [hs]
    refine slugify_fixed _ h fun c hc => ?_
    obtain ⟨b, _, rfl⟩ := mem_slug_core hc
    exact slug_out_char b

/-- The tail of `slugify_target` from the point where the scheme
prefixes have been stripped (definitional refactoring of
`slugify_target`, used to align both sides of the invariance
arguments). -/
def slugAfterScheme (u : PyStr) : PyStr :=
  let c4 := firstLabel (stripWww (takeUntilSlash u))
  let c5 := replaceNonAlnum c4
  if c5 = [] then codes "target" else c5

/-- The tail of `slugify_target` from the point where the leading
`www.` has been stripped. -/
def slugAfterWww (u : PyStr) : PyStr :=
  let c5 := replaceNonAlnum (firstLabel u)
  if c5 = [] then codes "target" else c5

lemma slugify_target_eq (x : PyStr) :
    slugify_target x = slugAfterScheme (stripSchemes (pyLowerStr (pyStrip x))) := rfl

lemma slugAfterScheme_eq (u : PyStr) :
    slugAfterScheme u = slugAfterWww (stripWww (takeUntilSlash u)) := rfl

lemma pyLStrip_concat (a s : PyStr) (ha : pyLStrip a = a) (hane : a ≠ []) :
    pyLStrip (a ++ s) = a ++ s := by
  unfold pyLStrip at *
  rw [List.dropWhile_append, ha, if_neg (by simp [hane])]

lemma pyRStrip_concat (a s : PyStr) (ha : pyRStrip a = a) (hs : pyRStrip s = s) :
    pyRStrip (a ++ s) = a ++ s := by
  rcases eq_or_ne s [] with rfl | hne
  · simpa using ha
  · have hds : s.reverse.dropWhile pyIsSpace = s.reverse := by
      have h := congrArg List.reverse hs
      unfold pyRStrip at h
      rwa [List.reverse_reverse] at h
    unfold pyRStrip
    rw [List.reverse_append, List.dropWhile_append, hds,
      if_neg (by simp [hne]), List.reverse_append, List.reverse_reverse,
      List.reverse_reverse]

lemma pyStrip_concat (a s : PyStr) (haL : pyLStrip a = a) (haR : pyRStrip a = a)
    (hane : a ≠ []) (hsR : pyRStrip s = s) : pyStrip (a ++ s) = a ++ s := by
  unfold pyStrip
  rw [pyRStrip_concat a s haR hsR, pyLStrip_concat a s haL hane]

lemma pyLowerStr_concat_http (s : PyStr) :
    pyLowerStr (codes "http://" ++ s) = codes "http://" ++ pyLowerStr s := by
  unfold pyLowerStr
  rw [List.map_append,
    show List.map pyLower (codes "http://") = codes "http://" from by decide]

lemma pyLowerStr_concat_https (s : PyStr) :
    pyLowerStr (codes "https://" ++ s) = codes "https://" ++ pyLowerStr s := by
  unfold pyLowerStr
  rw [List.map_append,
    show List.map pyLower (codes "https://") = codes "https://" from by decide]

lemma pyLowerStr_concat_www (s : PyStr) :
    pyLowerStr (codes "www." ++ s) = codes "www." ++ pyLowerStr s := by
  unfold pyLowerStr
  rw [List.map_append,
    show List.map pyLower (codes "www.") = codes "www." from by decide]

lemma pyStartswith_takeWhile (q : Nat → Bool) :
    ∀ (l P : PyStr), pyStartswith P (l.takeWhile q) = true → pyStartswith P l = true := by
  intro l
  induction l with
  | nil => intro P h; exact h
  | cons a t ih =>
    intro P h
    rw [List.takeWhile_cons] at h
    by_cases hq : q a = true
    · rw [if_pos hq] at h
      cases P with
      | nil => rfl
      | cons p ps =>
        simp only [pyStartswith, Bool.and_eq_true] at h ⊢
        exact ⟨h.1, ih ps h.2⟩
    · rw [if_neg hq] at h
      cases P with
      | nil => rfl
      | cons p ps => simp [pyStartswith] at h

lemma pyStartswith_append_decomp :
    ∀ (y P r : PyStr), pyStartswith P (y ++ r) = true →
      pyStartswith P y = true ∨
      (y.length < P.length ∧ y = P.take y.length ∧
        pyStartswith (P.drop y.length) r = true) := by
  intro y
  induction y with
  | nil =>
    intro P r h
    cases P with
    | nil => exact Or.inl rfl
    | cons p ps => exact Or.inr ⟨by simp, by simp, by simpa using h⟩
  | cons b ys ih =>
    intro P r h
    cases P with
    | nil => exact Or.inl rfl
    | cons p ps =>
      simp only [List.cons_append, pyStartswith, Bool.and_eq_true, beq_iff_eq] at h
      obtain ⟨rfl, h2⟩ := h
      rcases ih ps r h2 with h3 | ⟨hlen, htake, hrest⟩
      · exact Or.inl (by simp [pyStartswith, h3])
      · refine Or.inr ⟨by simpa using Nat.succ_lt_succ hlen, ?_, ?_⟩
        · simp only [List.length_cons, List.take_succ_cons]
          exact congrArg _ htake
        · simp only [List.length_cons, List.drop_succ_cons]
          exact hrest

lemma pyStartswith_cons_head {d : Nat} {ds l2 : PyStr} {c : Nat}
    (h : pyStartswith (d :: ds) (c :: l2) = true) : d = c ∧ pyStartswith ds l2 = true := by
  simpa [pyStartswith, Bool.and_eq_true, beq_iff_eq] using h

lemma not_scheme_http (y z : PyStr) (h47 : (47 : Nat) ∉ y)
    (hfull : pyStartswith (codes "http://") y = false) (hpart : y ≠ codes "http:") :
    pyStartswith (codes "http://") (y ++ 47 :: z) = false := by
  cases hS : pyStartswith (codes "http://") (y ++ 47 :: z)
  · rfl
  · exfalso
    rcases pyStartswith_append_decomp y (codes "http://") (47 :: z) hS with
      h1 | ⟨hlen, htake, hrest⟩
    · simp [h1] at hfull
    · have hl7 : (codes "http://").length = 7 := by decide
      rw [hl7] at hlen
      obtain ⟨k, hk, hkeq⟩ : ∃ k, k < 7 ∧ y.length = k := ⟨y.length, hlen, rfl⟩
      rw [hkeq] at htake hrest
      interval_cases k
      · exact absurd (pyStartswith_cons_head hrest).1 (by decide)
      · exact absurd (pyStartswith_cons_head hrest).1 (by decide)
      · exact absurd (pyStartswith_cons_head hrest).1 (by decide)
      · exact absurd (pyStartswith_cons_head hrest).1 (by decide)
      · exact absurd (pyStartswith_cons_head hrest).1 (by decide)
      · rw [show (codes "http://").take 5 = codes "http:" from by decide] at htake
        exact hpart htake
      · have h6 : (47 : Nat) ∈ (codes "http://").take 6 := by decide
        rw [← htake] at h6
        exact h47 h6

lemma not_scheme_https (y z : PyStr) (h47 : (47 : Nat) ∉ y)
    (hfull : pyStartswith (codes "https://") y = false) (hpart : y ≠ codes "https:") :
    pyStartswith (codes "https://") (y ++ 47 :: z) = false := by
  cases hS : pyStartswith (codes "https://") (y ++ 47 :: z)
  · rfl
  · exfalso
    rcases pyStartswith_append_decomp y (codes "https://") (47 :: z) hS with
      h1 | ⟨hlen, htake, hrest⟩
    · simp [h1] at hfull
    · have hl8 : (codes "https://").length = 8 := by decide
      rw [hl8] at hlen
      obtain ⟨k, hk, hkeq⟩ : ∃ k, k < 8 ∧ y.length = k := ⟨y.length, hlen, rfl⟩
      rw [hkeq] at htake hrest
      interval_cases k
      · exact absurd (pyStartswith_cons_head hrest).1 (by decide)
      · exact absurd (pyStartswith_cons_head hrest).1 (by decide)
      · exact absurd (pyStartswith_cons_head hrest).1 (by decide)
      · exact absurd (pyStartswith_cons_head hrest).1 (by decide)
      · exact absurd (pyStartswith_cons_head hrest).1 (by decide)
      · exact absurd (pyStartswith_cons_head hrest).1 (by decide)
      · rw [show (codes "https://").take 6 = codes "https:" from by decide] at htake
        exact hpart htake
      · have h7 : (47 : Nat) ∈ (codes "https://").take 7 := by decide
        rw [← htake] at h7
        exact h47 h7

lemma takeUntilSlash_append47 (y z : PyStr) (h47 : (47 : Nat) ∉ y) :
    takeUntilSlash (y ++ 47 :: z) = y := by
  unfold takeUntilSlash
  rw [List.takeWhile_append_of_pos (fun a ha => by
    simp only [bne_iff_ne, ne_eq]
    rintro rfl
    exact h47 ha)]
  simp

lemma takeUntilSlash_eq_self (y : PyStr) (h47 : (47 : Nat) ∉ y) :
    takeUntilSlash y = y := by
  refine takeWhile_eq_self_of_all fun c hc => ?_
  simp only [bne_iff_ne, ne_eq]
  rintro rfl
  exact h47 hc

lemma pyLower_ne47 {b : Nat} (h : b ≠ 47) : pyLower b ≠ 47 := by
  simp only [pyLower]
  split_ifs with hc <;> omega

lemma not47_lower {s : PyStr} (h : (47 : Nat) ∉ s) : (47 : Nat) ∉ pyLowerStr s := by
  intro hx
  obtain ⟨b, hb, hlb⟩ := List.mem_map.mp hx
  exact pyLower_ne47 (fun hb47 => h (hb47 ▸ hb)) hlb

lemma pyStrip_append_cons47 (s q : PyStr) (hls : pyLStrip s = s) (hrs : pyRStrip s = s) :
    pyStrip (s ++ 47 :: q) = s ++ 47 :: pyRStrip q := by
  have hR : pyRStrip (s ++ 47 :: q) = s ++ 47 :: pyRStrip q := by
    unfold pyRStrip
    rw [List.reverse_append, List.reverse_cons, List.dropWhile_append,
      List.dropWhile_append]
    rw [show List.dropWhile pyIsSpace [47] = [47] from rfl]
    by_cases he : (List.dropWhile pyIsSpace q.reverse).isEmpty = true
    · have hq : List.dropWhile pyIsSpace q.reverse = [] := by simpa using he
      simp [hq, pyRStrip]
    · have hq : List.dropWhile pyIsSpace q.reverse ≠ [] := by simpa using he
      rw [if_neg (by simp [hq]), if_neg (by simp [hq])]
      simp [pyRStrip]
  have hL : pyLStrip (s ++ 47 :: pyRStrip q) = s ++ 47 :: pyRStrip q := by
    cases s with
    | nil =>
      simp only [List.nil_append]
      unfold pyLStrip
      rw [List.dropWhile_cons, if_neg (by decide)]
    | cons a t => exact pyLStrip_concat (a :: t) _ hls (by simp)
  unfold pyStrip
  rw [hR, hL]

/-- C4 counterexample: `www.www.example.com` and `www.example.com`
differ only by one `www.` prefix, yet their slugs differ (`www`
against `example`), because `slugify_target` strips only a single
leading `www.` and then keeps the first remaining label. -/
theorem slugify_www_prefix_counterexample :
    codes "www.www.example.com" = codes "www." ++ codes "www.example.com" ∧
    slugify_target (codes "www.www.example.com") = codes "www" ∧
    slugify_target (codes "www.example.com") = codes "example" ∧
    slugify_target (codes "www.www.example.com") ≠
      slugify_target (codes "www.example.com") := by
  decide

/-- C4 as amended: for every pair of target strings that differ only
by an `http://` or `https://` scheme prefix, a `www.` prefix, or a
path after the first `/`, where the base string is already
whitespace-trimmed and its lowercasing does not itself begin with a
scheme or `www.` prefix, `slugify_target` returns identical slugs (for
the path case the base must contain no `/` and its lowercasing must
not be the literal `http:` or `https:`); in particular
`https://www.example.com/path` and `example.com` both slug to
`example`. -/
theorem slugify_prefix_invariance (s p : PyStr)
    (hls : pyLStrip s = s) (hrs : pyRStrip s = s)
    (h1 : pyStartswith (codes "https://") (pyLowerStr s) = false)
    (h2 : pyStartswith (codes "http://") (pyLowerStr s) = false)
    (h3 : pyStartswith (codes "www.") (pyLowerStr s) = false) :
    slugify_target (codes "http://" ++ s) = slugify_target s ∧
    slugify_target (codes "https://" ++ s) = slugify_target s ∧
    slugify_target (codes "www." ++ s) = slugify_target s ∧
    ((47 : Nat) ∉ s → pyLowerStr s ≠ codes "http:" → pyLowerStr s ≠ codes "https:" →
      slugify_target (s ++ 47 :: p) = slugify_target s) ∧
    slugify_target (codes "https://www.example.com/path") = codes "example" ∧
    slugify_target (codes "example.com") = codes "example" := by
  have hStripS : pyStrip s = s := by unfold pyStrip; rw [hrs, hls]
  have hNeS : stripSchemes (pyLowerStr s) = pyLowerStr s := by
    simp [stripSchemes, h1, h2]
  have hSlugS : slugify_target s = slugAfterScheme (pyLowerStr s) := by
    rw [slugify_target_eq, hStripS, hNeS]
  refine ⟨?_, ?_, ?_, ?_, by decide, by decide⟩
  · -- http:// prefix
    rw [slugify_target_eq,
      pyStrip_concat (codes "http://") s (by decide) (by decide) (by decide) hrs,
      pyLowerStr_concat_http, hSlugS]
    congr 1
  · -- https:// prefix
    rw [slugify_target_eq,
      pyStrip_concat (codes "https://") s (by decide) (by decide) (by decide) hrs,
      pyLowerStr_concat_https, hSlugS]
    congr 1
    simp [stripSchemes,
      show pyStartswith (codes "https://") (codes "https://" ++ pyLowerStr s) = true from rfl,
      show (codes "https://" ++ pyLowerStr s).drop 8 = pyLowerStr s from rfl, h2]
  · -- www. prefix
    have hSchW : stripSchemes (codes "www." ++ pyLowerStr s) =
        codes "www." ++ pyLowerStr s := by
      simp [stripSchemes,
        show pyStartswith (codes "https://") (codes "www." ++ pyLowerStr s) = false from rfl,
        show pyStartswith (codes "http://") (codes "www." ++ pyLowerStr s) = false from rfl]
    have hWwwY : pyStartswith (codes "www.") (takeUntilSlash (pyLowerStr s)) = false := by
      cases hW : pyStartswith (codes "www.") (takeUntilSlash (pyLowerStr s))
      · rfl
      · have h' := pyStartswith_takeWhile _ (pyLowerStr s) (codes "www.") hW
        rw [h'] at h3
        simp at h3
    rw [slugify_target_eq,
      pyStrip_concat (codes "www.") s (by decide) (by decide) (by decide) hrs,
      pyLowerStr_concat_www, hSchW, slugAfterScheme_eq,
      show takeUntilSlash (codes "www." ++ pyLowerStr s) =
        codes "www." ++ takeUntilSlash (pyLowerStr s) from rfl,
      show stripWww (codes "www." ++ takeUntilSlash (pyLowerStr s)) =
        takeUntilSlash (pyLowerStr s) from by
        simp [stripWww,
          show pyStartswith (codes "www.") (codes "www." ++ takeUntilSlash (pyLowerStr s)) = true from rfl,
          show (codes "www." ++ takeUntilSlash (pyLowerStr s)).drop 4 =
            takeUntilSlash (pyLowerStr s) from rfl],
      hSlugS, slugAfterScheme_eq]
    rw [show stripWww (takeUntilSlash (pyLowerStr s)) =
      takeUntilSlash (pyLowerStr s) from by simp [stripWww, hWwwY]]
  · -- path after the first slash
    intro h47s hhp hhps
    have h47y : (47 : Nat) ∉ pyLowerStr s := not47_lower h47s
    have hSch : stripSchemes (pyLowerStr s ++ 47 :: pyLowerStr (pyRStrip p)) =
        pyLowerStr s ++ 47 :: pyLowerStr (pyRStrip p) := by
      simp [stripSchemes,
        not_scheme_https (pyLowerStr s) (pyLowerStr (pyRStrip p)) h47y h1 hhps,
        not_scheme_http (pyLowerStr s) (pyLowerStr (pyRStrip p)) h47y h2 hhp]
    rw [slugify_target_eq, pyStrip_append_cons47 s p hls hrs]
    rw [show pyLowerStr (s ++ 47 :: pyRStrip p) =
        pyLowerStr s ++ 47 :: pyLowerStr (pyRStrip p) from by
      unfold pyLowerStr
      rw [List.map_append, List.map_cons,
        show pyLower 47 = 47 from by decide]]
    rw [hSch, slugAfterScheme_eq,
      takeUntilSlash_append47 _ _ h47y, hSlugS, slugAfterScheme_eq,
      takeUntilSlash_eq_self _ h47y]

/-- Witness for the amended C4 at the concrete base `example.com` and
path `path`. -/
theorem slugify_prefix_invariance_witness :
    pyLStrip (codes "example.com") = codes "example.com" ∧
    slugify_target (codes "http://" ++ codes "example.com") =
      slugify_target (codes "example.com") ∧
    slugify_target (codes "example.com" ++ 47 :: codes "path") =
      slugify_target (codes "example.com") :=
  ⟨by decide,
    (slugify_prefix_invariance (codes "example.com") (codes "path")
      (by decide) (by decide) (by decide) (by decide) (by decide)).1,
    (slugify_prefix_invariance (codes "example.com") (codes "path")
      (by decide) (by decide) (by decide) (by decide) (by decide)).2.2.2.1
      (by decide) (by decide) (by decide)⟩

lemma toolScore_ge (tool : PyStr) (s : Nat) (h : toolScore tool = some s) : 50 ≤ s := by
  simp only [toolScore] at h
  split_ifs at h <;> simp_all <;> omega

lemma toolScore_getD_ge (tool : PyStr) : 50 ≤ (toolScore tool).getD 50 := by
  rcases h : toolScore tool with _ | s
  · simp
  · simpa using toolScore_ge tool s h

/-- C10: for every finding shape and every tool name,
`_calculate_confidence` returns an integer between 50 and 99
inclusive; the severity and matcher boosts can never push the result
above the 99 cap. -/
theorem calculate_confidence_bounds (f : Finding) (tool : PyStr) :
    50 ≤ calculateConfidence f tool ∧ calculateConfidence f tool ≤ 99 := by
  have h1 := toolScore_getD_ge tool
  unfold calculateConfidence
  constructor
  · refine Nat.le_min.mpr ⟨?_, by norm_num⟩
    split_ifs <;> omega
  · exact Nat.min_le_right _ _

/-- C8: for every configured tool, target, focus, and flag list,
`build_command` records the creation of `outputRoot/<slug>/` before it
returns (the directory is in the `created` effects of the result), and
the output artifact path lies directly under that directory with a
file name beginning with the tool identifier (e.g. `subfinder.txt`,
`nuclei.json`, `nmap.nmap`, the `gospider` directory). -/
theorem build_command_output_layout (tool : String) (h : tool ∈ TOOL_ORDER)
    (target : PyStr) (focus : FocusOpt) (flagsExpanded : List PyStr)
    (customWordlists : Option (List PyStr)) (wlExists : PyStr → Bool)
    (nucleiTemplates : Bool) (outputRoot : PyStr) (slugOverride : Option PyStr) :
    ∃ r : BuildResult,
      build_command tool target focus flagsExpanded customWordlists wlExists
        nucleiTemplates outputRoot slugOverride = some r ∧
      pathJoin outputRoot (slugName slugOverride target) ∈ r.created ∧
      ∃ fname,
        r.outfile = pathJoin (pathJoin outputRoot (slugName slugOverride target)) fname ∧
        pyStartswith (codes tool) fname = true := by
  simp only [TOOL_ORDER] at h
  fin_cases h <;>
    first
      | exact ⟨_, rfl, List.mem_cons_self _ _, _, rfl, by decide⟩
      | exact ⟨_, rfl, List.mem_cons_self _ _, codes "nmap.nmap",
          by
            show pathJoin (pathJoin outputRoot (slugName slugOverride target))
                (codes "nmap") ++ codes ".nmap" =
              pathJoin (pathJoin outputRoot (slugName slugOverride target))
                (codes "nmap.nmap")
            unfold pathJoin
            rw [List.append_assoc]
            congr 1,
          by decide⟩

/-- Witness for C8 at the concrete tool `subfinder`, target
`example.com`, default focus, no flags, under `SINGLES_DIR`. -/
theorem build_command_output_layout_witness :
    ("subfinder" ∈ TOOL_ORDER) ∧
    ∃ r : BuildResult,
      build_command "subfinder" (codes "example.com") ⟨false, []⟩ [] none
        (fun _ => false) false SINGLES_DIR none = some r ∧
      pathJoin SINGLES_DIR (slugName none (codes "example.com")) ∈ r.created ∧
      ∃ fname,
        r.outfile = pathJoin (pathJoin SINGLES_DIR (slugName none (codes "example.com"))) fname ∧
        pyStartswith (codes "subfinder") fname = true :=
  ⟨by decide, build_command_output_layout "subfinder" (by decide)
    (codes "example.com") ⟨false, []⟩ [] none (fun _ => false) false SINGLES_DIR none⟩

end Bugx
